import Mathlib

/-!
Verification of the kedro `FeatherLocalDataSet` adapter
(`src/kedro/contrib/io/feather/feather_local.py`) against its specification.

The adapter file is embedded directly.  The versioning core it calls into
(`kedro.io.core`: `AbstractVersionedDataSet`, `Version`, the versioned path
resolver and the post-save consistency check) is not part of the supplied
sources, so those parts are modelled from the specification; each such
definition carries a doc comment starting with `Modelled from the spec:`.

The embedding is pure: the filesystem is an explicit value threaded through
every operation, a path is a list of components together with an
absolute-or-relative flag, and Python exceptions become `Except` errors.
-/

set_option autoImplicit false

/-- Embedding of a `pathlib.Path`: a list of name components plus a flag
recording whether the path is absolute.  `Path.absolute()` resolves a
relative path against the current working directory. -/
structure PPath where
  abs : Bool
  comps : List String
deriving DecidableEq

/-- Embedding of `Path.absolute()`: an absolute path keeps its components,
a relative path is resolved against the working directory `cwd`. -/
def PPath.absolute (p : PPath) (cwd : List String) : List String :=
  if p.abs then p.comps else cwd ++ p.comps

/-- Embedding of `kedro.io.core.Version`: an immutable pair of an optional
load identifier and an optional save identifier, `none` meaning
"resolve automatically". -/
structure Version where
  load : Option String
  save : Option String
deriving DecidableEq

/-- Keyword-argument mappings (Python dicts of options) as association
lists from option name to value. -/
abbrev Args := List (String × String)

/-- First-match association-list lookup, used both for option dicts and
for the file store. -/
def assocLookup {κ β : Type} [DecidableEq κ] : List (κ × β) → κ → Option β
  | [], _ => none
  | (k, v) :: rest, key => if key = k then some v else assocLookup rest key

/-- Embedding of the Python dict merge `\x7b**a, **b\x7d`: the result binds
every key of either dict, and on a key bound by both the binding of `b`
wins (a shallow merge). -/
def dictUnion (a b : Args) : Args :=
  a.filter (fun kv => (assocLookup b kv.1).isNone) ++ b

/-- The output of `_describe()`: the static configuration of the data set. -/
structure DescribeDict where
  filepath : PPath
  load_args : Args
  version : Option Version
deriving DecidableEq

/-- The exceptions the embedded code can raise.  `dataSetError` embeds
`kedro.io.DataSetError` carrying the dataset type name and its
`_describe()` output; `versionNotFound` and `inconsistentVersion` embed the
resolver and consistency-check failures, which the spec surfaces under the
`DataSetError` umbrella (subclasses); `fileNotFound` embeds a raw library
error (Python `FileNotFoundError`), which is not a `DataSetError`. -/
inductive KErr where
  | dataSetError (dsType : String) (desc : DescribeDict)
  | versionNotFound
  | inconsistentVersion
  | fileNotFound
deriving DecidableEq

/-- Whether an exception is an instance of `DataSetError` (the two
versioning errors are its subclasses; a raw library error is not). -/
def KErr.isDataSetError : KErr → Bool
  | .dataSetError _ _ => true
  | .versionNotFound => true
  | .inconsistentVersion => true
  | .fileNotFound => false

/-- The filesystem: a store of regular files (absolute component path to
content) and a set of existing directories.  File contents are opaque
values of type `V` (serialization internals are out of scope). -/
structure FS (V : Type) where
  files : List (List String × V)
  dirs : List (List String)

/-- Content of the regular file at an absolute path, when present. -/
def FS.read {V : Type} (fs : FS V) (p : List String) : Option V :=
  assocLookup fs.files p

/-- Write (create or overwrite) the regular file at an absolute path. -/
def FS.write {V : Type} (fs : FS V) (p : List String) (v : V) : FS V :=
  { files := (p, v) :: fs.files.filter (fun kv => kv.1 ≠ p), dirs := fs.dirs }

/-- Embedding of `Path.is_file()`: the path names an existing regular file. -/
def FS.isFile {V : Type} (fs : FS V) (p : List String) : Bool :=
  (fs.read p).isSome

/-- Whether a directory exists; the filesystem root always exists. -/
def FS.hasDir {V : Type} (fs : FS V) (p : List String) : Bool :=
  decide (p = [] ∨ p ∈ fs.dirs)

/-- Embedding of `path.parent.mkdir(parents=True, exist_ok=True)` for the
file path `p`: every ancestor directory of `p`'s parent is created. -/
def FS.mkdirParents {V : Type} (fs : FS V) (p : List String) : FS V :=
  { files := fs.files,
    dirs := ((List.range p.dropLast.length).map fun n => p.dropLast.take (n + 1))
            ++ fs.dirs }

/-- Embedding of `pandas.read_feather(path, **load_args)`: returns the
stored value, or raises a raw `FileNotFoundError` when no file exists at
the path.  The options are passed through; feather format internals are out
of scope, so they do not alter the stored value. -/
def read_feather {V : Type} (fs : FS V) (p : List String) (kwargs : Args) :
    Except KErr V :=
  match fs.read p with
  | some v => .ok v
  | none =>
    match kwargs with
    | _ => .error .fileNotFound

/-- Embedding of `data.to_feather(str(path))`: writes the value at the
path, or raises a raw `FileNotFoundError` when the parent directory does
not exist. -/
def to_feather {V : Type} (fs : FS V) (p : List String) (v : V) :
    Except KErr (FS V) :=
  if fs.hasDir p.dropLast then .ok (fs.write p v) else .error .fileNotFound

/-- Modelled from the spec: lexicographic (lexical) order on
version-identifier strings, as sequences of characters.  `leChars a b`
holds when `a` precedes or equals `b` lexically. -/
def leChars : List Char → List Char → Bool
  | [], _ => true
  | _ :: _, [] => false
  | a :: as, b :: bs => if a < b then true else if b < a then false else leChars as bs

/-- Modelled from the spec: the first element of the descending lexical
sort of a list of version identifiers, i.e. its lexical maximum, `none`
when the list is empty. -/
def latestVersion : List String → Option String
  | [] => none
  | v :: rest =>
    match latestVersion rest with
    | none => some v
    | some m => some (if leChars v.data m.data then m else v)

/-- Modelled from the spec: the versioned layout
`<base_path_parent>/<base_filename>/<version_id>/<base_filename>` of a base
filepath under a version identifier. -/
def versionedPath (base : PPath) (ver : String) : PPath :=
  { abs := base.abs,
    comps := base.comps.dropLast
             ++ [base.comps.getLastD "", ver, base.comps.getLastD ""] }

/-- Modelled from the spec: recognise a stored absolute file path as a
versioned instance of the dataset whose versioned files live under
directory `dir` with filename `fn`, extracting the version identifier. -/
def matchVersion (dir : List String) (fn : String) (p : List String) :
    Option String :=
  if p.take dir.length = dir then
    match p.drop dir.length with
    | [a, u, b] => if a = fn ∧ b = fn then some u else none
    | _ => none
  else none

/-- Modelled from the spec: enumerate the version identifiers of the
candidate version directories that contain the dataset's target filename. -/
def candidateVersions {V : Type} (fs : FS V) (cwd : List String) (base : PPath) :
    List String :=
  fs.files.filterMap fun kv =>
    matchVersion (base.absolute cwd).dropLast ((base.absolute cwd).getLastD "") kv.1

/-- Modelled from the spec: `VersionedPathResolver.resolve_load_path`.
With no version the base path itself is returned.  With an explicit load
identifier the base path is nested under that identifier; when the caller
requires existence (reading) and no matching file exists this fails with
`VersionNotFoundError`.  With an unset load identifier the latest existing
version is chosen by descending lexical sort of the candidate version
identifiers, failing with `VersionNotFoundError` when there is none. -/
def resolve_load_path {V : Type} (fs : FS V) (cwd : List String) (base : PPath)
    (version : Option Version) (requireExists : Bool) : Except KErr PPath :=
  match version with
  | none => .ok base
  | some v =>
    match v.load with
    | some id =>
      if requireExists && !(fs.isFile ((versionedPath base id).absolute cwd))
      then .error .versionNotFound
      else .ok (versionedPath base id)
    | none =>
      match latestVersion (candidateVersions fs cwd base) with
      | some m => .ok (versionedPath base m)
      | none => .error .versionNotFound

/-- Modelled from the spec: `VersionedPathResolver.resolve_save_path`.
With no version the base path itself; with a version, the base path nested
under the explicit save identifier, or under the freshly generated
identifier `genId` when the save identifier is unset. -/
def resolve_save_path (base : PPath) (version : Option Version) (genId : String) :
    PPath :=
  match version with
  | none => base
  | some v => versionedPath base (v.save.getD genId)

/-- Modelled from the spec: `ConsistencyChecker.check`, called with the two
paths already normalized to absolute form; fails with
`InconsistentVersionError` if they differ. -/
def check_paths_consistency (load_path save_path : List String) :
    Except KErr Unit :=
  if load_path = save_path then .ok () else .error .inconsistentVersion

/-- Embedding of the `FeatherLocalDataSet` instance: its persistent fields
`_filepath`, `_load_args` and `_version`, set in `__init__` and never
reassigned. -/
structure FeatherLocalDataSet where
  filepath : PPath
  load_args : Args
  version : Option Version
deriving DecidableEq

/-- The adapter's default options mapping (`default_load_args = {}`). -/
def default_load_args : Args := []

/-- Embedding of `FeatherLocalDataSet.__init__`: stores the filepath and
version, and sets `_load_args` to `\x7b**default_load_args, **load_args\x7d`
when `load_args` is supplied and to `default_load_args` otherwise. -/
def FeatherLocalDataSet.init (filepath : PPath) (load_args : Option Args)
    (version : Option Version) : FeatherLocalDataSet :=
  { filepath := filepath,
    load_args :=
      match load_args with
      | some la => dictUnion default_load_args la
      | none => default_load_args,
    version := version }

/-- Modelled from the spec: `AbstractVersionedDataSet._get_load_path`,
which resolves the load path for reading (existence required). -/
def FeatherLocalDataSet.get_load_path {V : Type} (ds : FeatherLocalDataSet)
    (cwd : List String) (fs : FS V) : Except KErr PPath :=
  resolve_load_path fs cwd ds.filepath ds.version true

/-- Embedding of `FeatherLocalDataSet._load`, generic in the reader it
delegates to: resolve the load path, then call the reader on that path
with the instance's `_load_args`. -/
def loadWith {V : Type} (reader : FS V → List String → Args → Except KErr V)
    (ds : FeatherLocalDataSet) (cwd : List String) (fs : FS V) : Except KErr V :=
  match ds.get_load_path cwd fs with
  | .error e => .error e
  | .ok load_path => reader fs (load_path.absolute cwd) ds.load_args

/-- Embedding of `FeatherLocalDataSet._load`: delegate to
`pandas.read_feather` at the resolved load path with `_load_args`. -/
def FeatherLocalDataSet.loadImpl {V : Type} (ds : FeatherLocalDataSet)
    (cwd : List String) (fs : FS V) : Except KErr V :=
  loadWith read_feather ds cwd fs

/-- Embedding of `FeatherLocalDataSet._save`: resolve the save path, create
the parent directories, write with `to_feather`, then freshly resolve the
load path and check consistency of the two paths normalized to absolute
form.  `genId` is the save-version identifier the surrounding call
generates when the save identifier is unset. -/
def FeatherLocalDataSet.saveImpl {V : Type} (ds : FeatherLocalDataSet)
    (cwd : List String) (genId : String) (fs : FS V) (data : V) :
    Except KErr (FS V) :=
  match to_feather
      (fs.mkdirParents ((resolve_save_path ds.filepath ds.version genId).absolute cwd))
      ((resolve_save_path ds.filepath ds.version genId).absolute cwd) data with
  | .error e => .error e
  | .ok fs2 =>
    match resolve_load_path fs2 cwd ds.filepath ds.version false with
    | .error e => .error e
    | .ok load_path =>
      match check_paths_consistency
          (load_path.absolute cwd)
          ((resolve_save_path ds.filepath ds.version genId).absolute cwd) with
      | .error e => .error e
      | .ok _ => .ok fs2

/-- Embedding of `FeatherLocalDataSet._describe`: the static mapping of the
instance's configuration fields, reading no filesystem state. -/
def FeatherLocalDataSet.describeImpl (ds : FeatherLocalDataSet) : DescribeDict :=
  { filepath := ds.filepath, load_args := ds.load_args, version := ds.version }

/-- Embedding of `FeatherLocalDataSet._exists` generic in its two effectful
steps, mirroring the exception scope of the source: only the call
`self._get_load_path()` is inside the `try`, only `DataSetError` is caught
and downgraded to `False`, and `Path(path).is_file()` runs outside the
`try`, so its exceptions propagate. -/
def existsImpl (get_load_path : Except KErr PPath)
    (is_file : PPath → Except KErr Bool) : Except KErr Bool :=
  match get_load_path with
  | .error e => if e.isDataSetError then .ok false else .error e
  | .ok p => is_file p

/-- Embedding of `FeatherLocalDataSet._exists` on the embedded filesystem:
the regular-file check `Path(path).is_file()` is pure here, so it never
raises. -/
def FeatherLocalDataSet.existsOp {V : Type} (ds : FeatherLocalDataSet)
    (cwd : List String) (fs : FS V) : Except KErr Bool :=
  existsImpl (ds.get_load_path cwd fs) (fun p => .ok (fs.isFile (p.absolute cwd)))

/-- Modelled from the spec: `AbstractVersionedDataSet.load`, the public
wrapper around `_load`, wrapping any failure (resolution or reader) into a
`DataSetError` carrying the dataset type and its `_describe()` output. -/
def FeatherLocalDataSet.load {V : Type} (ds : FeatherLocalDataSet)
    (cwd : List String) (fs : FS V) : Except KErr V :=
  match ds.loadImpl cwd fs with
  | .ok v => .ok v
  | .error _ => .error (.dataSetError "FeatherLocalDataSet" ds.describeImpl)

/-- Modelled from the spec: `AbstractVersionedDataSet.save`, the public
wrapper around `_save`: `DataSetError`-kind failures (including
`InconsistentVersionError` and `VersionNotFoundError`) surface unchanged,
any other writer failure is wrapped into a `DataSetError` carrying the
dataset type and its `_describe()` output. -/
def FeatherLocalDataSet.save {V : Type} (ds : FeatherLocalDataSet)
    (cwd : List String) (genId : String) (fs : FS V) (data : V) :
    Except KErr (FS V) :=
  match ds.saveImpl cwd genId fs data with
  | .ok fs2 => .ok fs2
  | .error e =>
    if e.isDataSetError then .error e
    else .error (.dataSetError "FeatherLocalDataSet" ds.describeImpl)

/-- The filesystem state after `_save`'s write step (directories created,
file written at the resolved save path), whether or not the subsequent
consistency check passes. -/
def writtenFS {V : Type} (ds : FeatherLocalDataSet) (cwd : List String)
    (genId : String) (fs : FS V) (data : V) : FS V :=
  (fs.mkdirParents ((resolve_save_path ds.filepath ds.version genId).absolute cwd)).write
    ((resolve_save_path ds.filepath ds.version genId).absolute cwd) data

/-- The four operations of the data-set contract, as calls. -/
inductive OpCall (V : Type) where
  | opLoad
  | opSave (data : V) (genId : String)
  | opExists
  | opDescribe

/-- The result of one operation call. -/
inductive OpResult (V : Type) where
  | rLoad (r : Except KErr V)
  | rSave (r : Except KErr Unit)
  | rExists (r : Except KErr Bool)
  | rDescribe (r : DescribeDict)

/-- One method call on the adapter, returning the instance the method
leaves behind (the source methods never reassign an instance field), the
filesystem after the call, and the call's outcome.  A failed save may
still have performed its write, so its filesystem reflects the write
step. -/
def runOp {V : Type} (ds : FeatherLocalDataSet) (cwd : List String) (fs : FS V) :
    OpCall V → FeatherLocalDataSet × FS V × OpResult V
  | .opLoad => (ds, fs, .rLoad (ds.load cwd fs))
  | .opSave data genId =>
    match ds.save cwd genId fs data with
    | .ok fs2 => (ds, fs2, .rSave (.ok ()))
    | .error e =>
      (ds,
       (match to_feather
           (fs.mkdirParents ((resolve_save_path ds.filepath ds.version genId).absolute cwd))
           ((resolve_save_path ds.filepath ds.version genId).absolute cwd) data with
        | .ok fs2 => fs2
        | .error _ =>
          fs.mkdirParents ((resolve_save_path ds.filepath ds.version genId).absolute cwd)),
       .rSave (.error e))
  | .opExists => (ds, fs, .rExists (ds.existsOp cwd fs))
  | .opDescribe => (ds, fs, .rDescribe ds.describeImpl)

/-! Helper lemmas about the embedding. -/

theorem assocLookup_append {κ β : Type} [DecidableEq κ] (l1 l2 : List (κ × β))
    (k : κ) :
    assocLookup (l1 ++ l2) k = (assocLookup l1 k).orElse (fun _ => assocLookup l2 k) := by
  induction l1 with
  | nil =>
    cases h : assocLookup l2 k <;> simp [assocLookup, Option.orElse, h]
  | cons kv rest ih =>
    obtain ⟨k1, v1⟩ := kv
    by_cases hk : k = k1 <;> simp [assocLookup, hk, Option.orElse, ih]

theorem assocLookup_filter_of_found (a b : Args) (k : String) (w : String)
    (hb : assocLookup b k = some w) :
    assocLookup (a.filter (fun kv => (assocLookup b kv.1).isNone)) k = none := by
  induction a with
  | nil => simp [assocLookup]
  | cons kv rest ih =>
    obtain ⟨k1, v1⟩ := kv
    by_cases h1 : (assocLookup b k1).isNone
    · have hk : ¬ (k = k1) := by
        intro he
        rw [← he, hb] at h1
        simp at h1
      simp [List.filter_cons, h1, assocLookup, hk, ih]
    · simp [List.filter_cons, h1, ih]

theorem assocLookup_filter_of_missing (a b : Args) (k : String)
    (hb : assocLookup b k = none) :
    assocLookup (a.filter (fun kv => (assocLookup b kv.1).isNone)) k
      = assocLookup a k := by
  induction a with
  | nil => simp
  | cons kv rest ih =>
    obtain ⟨k1, v1⟩ := kv
    by_cases hk : k = k1
    · subst hk
      have h1 : (assocLookup b k).isNone := by simp [hb]
      simp [List.filter_cons, h1, assocLookup]
    · by_cases h1 : (assocLookup b k1).isNone
      · simp [List.filter_cons, h1, assocLookup, hk, ih]
      · simp [List.filter_cons, h1, assocLookup, hk, ih]

theorem lookup_dictUnion (a b : Args) (k : String) :
    assocLookup (dictUnion a b) k
      = (assocLookup b k).orElse (fun _ => assocLookup a k) := by
  unfold dictUnion
  rw [assocLookup_append]
  cases hb : assocLookup b k with
  | none =>
    rw [assocLookup_filter_of_missing a b k hb]
    cases ha : assocLookup a k <;> simp [Option.orElse]
  | some w =>
    rw [assocLookup_filter_of_found a b k w hb]
    simp [Option.orElse]

theorem read_write_self {V : Type} (fs : FS V) (p : List String) (v : V) :
    (fs.write p v).read p = some v := by
  simp [FS.read, FS.write, assocLookup]

theorem isFile_write_self {V : Type} (fs : FS V) (p : List String) (v : V) :
    (fs.write p v).isFile p = true := by
  simp [FS.isFile, read_write_self]

theorem hasDir_mkdirParents {V : Type} (fs : FS V) (p : List String) :
    (fs.mkdirParents p).hasDir p.dropLast = true := by
  unfold FS.hasDir FS.mkdirParents
  rw [decide_eq_true_eq]
  rcases h : p.dropLast with _ | ⟨x, xs⟩
  · left
    rfl
  · right
    rw [← h]
    apply List.mem_append_left
    apply List.mem_map.mpr
    refine ⟨p.dropLast.length - 1, ?_, ?_⟩
    · apply List.mem_range.mpr
      rw [h]
      simp
    · have hlen : 1 ≤ p.dropLast.length := by rw [h]; simp
      rw [Nat.sub_add_cancel hlen]
      exact List.take_length _

theorem to_feather_mkdirParents {V : Type} (fs : FS V) (p : List String) (v : V) :
    to_feather (fs.mkdirParents p) p v = .ok ((fs.mkdirParents p).write p v) := by
  unfold to_feather
  rw [hasDir_mkdirParents]
  rfl

theorem leChars_refl (l : List Char) : leChars l l = true := by
  induction l with
  | nil => rfl
  | cons a as ih => simp [leChars, ih]

theorem leChars_total (a b : List Char) (h : leChars a b = false) :
    leChars b a = true := by
  induction a generalizing b with
  | nil => simp [leChars] at h
  | cons x as ih =>
    cases b with
    | nil => rfl
    | cons y bs =>
      unfold leChars at h ⊢
      by_cases hxy : x < y
      · simp [hxy] at h
      · by_cases hyx : y < x
        · simp [hyx, asymm hyx]
        · simp [hxy, hyx] at h
          simp [hxy, hyx, ih bs h]

theorem leChars_trans (a b c : List Char) (hab : leChars a b = true)
    (hbc : leChars b c = true) : leChars a c = true := by
  induction a generalizing b c with
  | nil => rfl
  | cons x as ih =>
    cases b with
    | nil => simp [leChars] at hab
    | cons y bs =>
      cases c with
      | nil => simp [leChars] at hbc
      | cons z cs =>
        unfold leChars at hab hbc ⊢
        by_cases hxy : x < y
        · by_cases hyz : y < z
          · simp [lt_trans hxy hyz]
          · by_cases hzy : z < y
            · simp [hyz, hzy] at hbc
            · have : y = z := le_antisymm (not_lt.mp hzy) (not_lt.mp hyz)
              subst this
              simp [hxy]
        · by_cases hyx : y < x
          · simp [hxy, hyx] at hab
          · have hxyeq : x = y := le_antisymm (not_lt.mp hyx) (not_lt.mp hxy)
            subst hxyeq
            simp [lt_irrefl] at hab
            by_cases hyz : x < z
            · simp [hyz]
            · by_cases hzy : z < x
              · simp [hyz, hzy] at hbc
              · simp [hyz, hzy] at hbc ⊢
                exact ih bs cs hab hbc

theorem latestVersion_none (l : List String) (h : latestVersion l = none) :
    l = [] := by
  cases l with
  | nil => rfl
  | cons v rest =>
    unfold latestVersion at h
    cases hr : latestVersion rest <;> simp [hr] at h

theorem latestVersion_spec (l : List String) (m : String)
    (h : latestVersion l = some m) :
    m ∈ l ∧ ∀ u ∈ l, leChars u.data m.data = true := by
  induction l generalizing m with
  | nil => simp [latestVersion] at h
  | cons v rest ih =>
    unfold latestVersion at h
    cases hr : latestVersion rest with
    | none =>
      have : rest = [] := latestVersion_none rest hr
      subst this
      rw [hr] at h
      simp at h
      subst h
      refine ⟨List.mem_singleton.mpr rfl, ?_⟩
      intro u hu
      rw [List.mem_singleton.mp hu]
      exact leChars_refl _
    | some m0 =>
      rw [hr] at h
      obtain ⟨hmem, hmax⟩ := ih m0 hr
      simp at h
      by_cases hcmp : leChars v.data m0.data = true
      · rw [if_pos hcmp] at h
        subst h
        refine ⟨List.mem_cons_of_mem _ hmem, ?_⟩
        intro u hu
        rcases List.mem_cons.mp hu with h1 | h2
        · subst h1; exact hcmp
        · exact hmax u h2
      · rw [if_neg hcmp] at h
        subst h
        have hmv : leChars m0.data v.data = true :=
          leChars_total _ _ (Bool.eq_false_iff.mpr hcmp)
        refine ⟨List.mem_cons_self _ _, ?_⟩
        intro u hu
        rcases List.mem_cons.mp hu with h1 | h2
        · subst h1; exact leChars_refl _
        · exact leChars_trans _ _ _ (hmax u h2) hmv

theorem hasDir_write {V : Type} (fs : FS V) (p q : List String) (v : V) :
    (fs.write p v).hasDir q = fs.hasDir q := by
  simp [FS.write, FS.hasDir]

theorem resolve_load_path_error {V : Type} (fs : FS V) (cwd : List String)
    (base : PPath) (version : Option Version) (req : Bool) (e : KErr)
    (h : resolve_load_path fs cwd base version req = .error e) :
    e = .versionNotFound := by
  cases version with
  | none => simp [resolve_load_path] at h
  | some v =>
    cases hv : v.load with
    | some id =>
      simp only [resolve_load_path, hv] at h
      split at h
      · injection h with h
        exact h.symm
      · simp at h
    | none =>
      simp only [resolve_load_path, hv] at h
      split at h
      · simp at h
      · injection h with h
        exact h.symm

theorem resolve_load_path_strengthen {V : Type} (fs : FS V) (cwd : List String)
    (base : PPath) (version : Option Version) (lp : PPath)
    (h : resolve_load_path fs cwd base version false = .ok lp)
    (hf : fs.isFile (lp.absolute cwd) = true) :
    resolve_load_path fs cwd base version true = .ok lp := by
  cases version with
  | none =>
    simp only [resolve_load_path] at h ⊢
    exact h
  | some v =>
    cases hv : v.load with
    | some id =>
      simp only [resolve_load_path, hv] at h ⊢
      simp at h
      subst h
      simp [hf]
    | none =>
      simp only [resolve_load_path, hv] at h ⊢
      exact h

/-! Claim theorems. -/

/-- C7: `describe()` performs no I/O and is idempotent: its result does
not depend on the filesystem or working directory, the call leaves the
filesystem unchanged, a second call with no intervening save returns the
identical mapping, and the mapping is exactly the adapter's static
configuration (filepath, options, version). -/
theorem C7_describe_static {V : Type} (ds : FeatherLocalDataSet)
    (cwd cwd2 : List String) (fs fs2 : FS V) :
    (runOp ds cwd fs .opDescribe).2.2 = (runOp ds cwd2 fs2 .opDescribe).2.2 ∧
    (runOp ds cwd fs .opDescribe).2.1 = fs ∧
    (runOp ds cwd ((runOp ds cwd fs .opDescribe).2.1) .opDescribe).2.2
      = (runOp ds cwd fs .opDescribe).2.2 ∧
    (runOp ds cwd fs .opDescribe).2.2
      = .rDescribe ⟨ds.filepath, ds.load_args, ds.version⟩ := by
  exact ⟨rfl, rfl, rfl, rfl⟩

/-- C4: an adapter built from a user-supplied options mapping has as
effective options the shallow merge of the default-options mapping with
the user mapping, the user value winning on any key present in both, and
`_load` invokes its reader with exactly those effective options at the
resolved load path. -/
theorem C4_options_merge {V : Type} (fp : PPath) (user : Args)
    (ver : Option Version) (cwd : List String) (fs : FS V)
    (reader : FS V → List String → Args → Except KErr V) (p : PPath) :
    (∀ k, assocLookup (FeatherLocalDataSet.init fp (some user) ver).load_args k
        = (assocLookup user k).orElse (fun _ => assocLookup default_load_args k)) ∧
    ((FeatherLocalDataSet.init fp (some user) ver).get_load_path cwd fs = .ok p →
      loadWith reader (FeatherLocalDataSet.init fp (some user) ver) cwd fs
        = reader fs (p.absolute cwd)
            (FeatherLocalDataSet.init fp (some user) ver).load_args) := by
  constructor
  · intro k
    exact lookup_dictUnion default_load_args user k
  · intro h
    unfold loadWith
    rw [h]

/-- C4 witness at a concrete input: the user binding wins and the reader
receives the merged options at the resolved path. -/
theorem C4_options_merge_witness :
    assocLookup
        (FeatherLocalDataSet.init ⟨true, ["f"]⟩ (some [("use_threads", "no")]) none).load_args
        "use_threads"
      = (assocLookup [("use_threads", "no")] "use_threads").orElse
          (fun _ => assocLookup default_load_args "use_threads") ∧
    loadWith read_feather
        (FeatherLocalDataSet.init ⟨true, ["f"]⟩ (some [("use_threads", "no")]) none)
        [] (⟨[(["f"], 1)], []⟩ : FS Nat)
      = read_feather (⟨[(["f"], 1)], []⟩ : FS Nat) ["f"]
          (FeatherLocalDataSet.init ⟨true, ["f"]⟩ (some [("use_threads", "no")]) none).load_args :=
  ⟨(C4_options_merge ⟨true, ["f"]⟩ [("use_threads", "no")] none []
      (⟨[(["f"], 1)], []⟩ : FS Nat) read_feather ⟨true, ["f"]⟩).1 "use_threads",
   (C4_options_merge ⟨true, ["f"]⟩ [("use_threads", "no")] none []
      (⟨[(["f"], 1)], []⟩ : FS Nat) read_feather ⟨true, ["f"]⟩).2 rfl⟩

/-- C2: `_exists` returns false, without raising, whenever load-path
resolution fails (absence), otherwise returns whether the resolved load
path is an existing regular file; in particular on a filesystem holding no
files (before any save) it returns false. -/
theorem C2_exists_absence {V : Type} (ds : FeatherLocalDataSet)
    (cwd : List String) (fs : FS V) :
    (∀ e : KErr, ds.get_load_path cwd fs = .error e →
      ds.existsOp cwd fs = .ok false) ∧
    (∀ p : PPath, ds.get_load_path cwd fs = .ok p →
      ds.existsOp cwd fs = .ok (fs.isFile (p.absolute cwd))) ∧
    (fs.files = [] → ds.existsOp cwd fs = .ok false) := by
  refine ⟨?_, ?_, ?_⟩
  · intro e he
    have hv : e = .versionNotFound := resolve_load_path_error fs cwd _ _ _ e he
    subst hv
    unfold FeatherLocalDataSet.existsOp existsImpl
    rw [he]
    rfl
  · intro p hp
    unfold FeatherLocalDataSet.existsOp existsImpl
    rw [hp]
  · intro hfiles
    cases he : (ds.get_load_path cwd fs : Except KErr PPath) with
    | error e =>
      have hv : e = .versionNotFound := resolve_load_path_error fs cwd _ _ _ e he
      subst hv
      unfold FeatherLocalDataSet.existsOp existsImpl
      rw [he]
      rfl
    | ok p =>
      unfold FeatherLocalDataSet.existsOp existsImpl
      rw [he]
      have hff : fs.isFile (p.absolute cwd) = false := by
        unfold FS.isFile FS.read
        rw [hfiles]
        rfl
      show Except.ok (fs.isFile (p.absolute cwd)) = Except.ok false
      rw [hff]

/-- C2 witness: a versioned handle and an unversioned handle, each on an
empty filesystem, report non-existence without an error. -/
theorem C2_exists_absence_witness :
    (⟨⟨true, ["d", "f"]⟩, [], some ⟨none, none⟩⟩ : FeatherLocalDataSet).existsOp []
        (⟨[], []⟩ : FS Nat) = .ok false ∧
    (⟨⟨true, ["d", "f"]⟩, [], none⟩ : FeatherLocalDataSet).existsOp []
        (⟨[], []⟩ : FS Nat) = .ok false :=
  ⟨(C2_exists_absence (⟨⟨true, ["d", "f"]⟩, [], some ⟨none, none⟩⟩ : FeatherLocalDataSet)
      [] (⟨[], []⟩ : FS Nat)).1 .versionNotFound rfl,
   (C2_exists_absence (⟨⟨true, ["d", "f"]⟩, [], none⟩ : FeatherLocalDataSet)
      [] (⟨[], []⟩ : FS Nat)).2.2 rfl⟩

/-- C10: `_exists` downgrades exactly the `DataSetError`-kind failures of
load-path resolution to a false result; a failure of resolution of any
other kind propagates to the caller unchanged, and whatever the
regular-file check on the resolved path produces (including a failure)
is returned unchanged. -/
theorem C10_exists_scope (glp : Except KErr PPath)
    (isf : PPath → Except KErr Bool) :
    (∀ e : KErr, glp = .error e → e.isDataSetError = true →
      existsImpl glp isf = .ok false) ∧
    (∀ e : KErr, glp = .error e → e.isDataSetError = false →
      existsImpl glp isf = .error e) ∧
    (∀ p : PPath, glp = .ok p → existsImpl glp isf = isf p) := by
  refine ⟨?_, ?_, ?_⟩
  · intro e he hds
    subst he
    simp [existsImpl, hds]
  · intro e he hds
    subst he
    simp [existsImpl, hds]
  · intro p hp
    subst hp
    rfl

/-- C10 witness: a raw `FileNotFoundError` from resolution propagates, a
`DataSetError` from resolution is downgraded to false, and a failure of
the regular-file check propagates. -/
theorem C10_exists_scope_witness :
    existsImpl (.error .fileNotFound) (fun _ => .ok false) = .error .fileNotFound ∧
    existsImpl (.error .versionNotFound) (fun _ => .ok false) = .ok false ∧
    existsImpl (.ok ⟨true, ["f"]⟩) (fun _ => .error .fileNotFound)
      = .error .fileNotFound :=
  ⟨(C10_exists_scope (.error .fileNotFound) (fun _ => .ok false)).2.1
      .fileNotFound rfl rfl,
   (C10_exists_scope (.error .versionNotFound) (fun _ => .ok false)).1
      .versionNotFound rfl rfl,
   (C10_exists_scope (.ok ⟨true, ["f"]⟩) (fun _ => .error .fileNotFound)).2.2
      ⟨true, ["f"]⟩ rfl⟩

/-- C6: loading from a dataset whose target path was never saved fails
with a `DataSetError` — never a raw library error — whose payload carries
the dataset type name and its `_describe()` configuration. -/
theorem C6_load_missing {V : Type} (ds : FeatherLocalDataSet)
    (cwd : List String) (fs : FS V) (hfiles : fs.files = []) :
    ds.load cwd fs
      = .error (.dataSetError "FeatherLocalDataSet" ds.describeImpl) := by
  unfold FeatherLocalDataSet.load
  cases h : (ds.loadImpl cwd fs : Except KErr V) with
  | error e => rfl
  | ok v =>
    exfalso
    unfold FeatherLocalDataSet.loadImpl loadWith at h
    cases hg : (ds.get_load_path cwd fs : Except KErr PPath) with
    | error e =>
      rw [hg] at h
      simp at h
    | ok p =>
      rw [hg] at h
      unfold read_feather FS.read at h
      rw [hfiles] at h
      simp [assocLookup] at h

/-- C6 witness: a never-saved unversioned handle and a never-saved
versioned handle both fail with the describing `DataSetError`. -/
theorem C6_load_missing_witness :
    (⟨⟨true, ["d", "f"]⟩, [], none⟩ : FeatherLocalDataSet).load [] (⟨[], []⟩ : FS Nat)
      = .error (.dataSetError "FeatherLocalDataSet"
          (⟨⟨true, ["d", "f"]⟩, [], none⟩ : FeatherLocalDataSet).describeImpl) ∧
    (⟨⟨true, ["d", "f"]⟩, [], some ⟨none, none⟩⟩ : FeatherLocalDataSet).load []
        (⟨[], []⟩ : FS Nat)
      = .error (.dataSetError "FeatherLocalDataSet"
          (⟨⟨true, ["d", "f"]⟩, [], some ⟨none, none⟩⟩ : FeatherLocalDataSet).describeImpl) :=
  ⟨C6_load_missing (⟨⟨true, ["d", "f"]⟩, [], none⟩ : FeatherLocalDataSet) []
      (⟨[], []⟩ : FS Nat) rfl,
   C6_load_missing (⟨⟨true, ["d", "f"]⟩, [], some ⟨none, none⟩⟩ : FeatherLocalDataSet) []
      (⟨[], []⟩ : FS Nat) rfl⟩

theorem saveImpl_eq {V : Type} (ds : FeatherLocalDataSet) (cwd : List String)
    (genId : String) (fs : FS V) (data : V) :
    ds.saveImpl cwd genId fs data =
      match resolve_load_path (writtenFS ds cwd genId fs data) cwd
          ds.filepath ds.version false with
      | .error e => .error e
      | .ok load_path =>
        if load_path.absolute cwd
            = (resolve_save_path ds.filepath ds.version genId).absolute cwd
        then .ok (writtenFS ds cwd genId fs data)
        else .error .inconsistentVersion := by
  unfold FeatherLocalDataSet.saveImpl writtenFS
  simp only [to_feather_mkdirParents]
  cases hr : resolve_load_path
      ((fs.mkdirParents ((resolve_save_path ds.filepath ds.version genId).absolute cwd)).write
        ((resolve_save_path ds.filepath ds.version genId).absolute cwd) data)
      cwd ds.filepath ds.version false with
  | error e => rfl
  | ok lp =>
    by_cases hc : lp.absolute cwd
        = (resolve_save_path ds.filepath ds.version genId).absolute cwd
    · simp [check_paths_consistency, hc]
    · simp [check_paths_consistency, hc]

/-- C8: with a version whose load identifier is unset, load-path
resolution picks the latest existing version by descending lexical sort of
the candidate version identifiers (it returns the versioned path of a
candidate that is lexically greatest among the candidates), and fails with
`VersionNotFoundError` when the dataset has never been saved. -/
theorem C8_version_resolution {V : Type} (fs : FS V) (cwd : List String)
    (base : PPath) (sv : Option String) (req : Bool) :
    (fs.files = [] →
      resolve_load_path fs cwd base (some ⟨none, sv⟩) req
        = .error .versionNotFound) ∧
    (∀ lp : PPath,
      resolve_load_path fs cwd base (some ⟨none, sv⟩) req = .ok lp →
      ∃ u, lp = versionedPath base u ∧ u ∈ candidateVersions fs cwd base ∧
        ∀ w ∈ candidateVersions fs cwd base, leChars w.data u.data = true) := by
  constructor
  · intro hfiles
    have hc : candidateVersions fs cwd base = [] := by
      unfold candidateVersions
      rw [hfiles]
      rfl
    simp only [resolve_load_path, hc]
    rfl
  · intro lp h
    simp only [resolve_load_path] at h
    cases hl : latestVersion (candidateVersions fs cwd base) with
    | none =>
      rw [hl] at h
      simp at h
    | some m =>
      rw [hl] at h
      simp at h
      obtain ⟨hmem, hmax⟩ := latestVersion_spec _ m hl
      exact ⟨m, h.symm, hmem, hmax⟩

/-- C8 witness: with saved versions v1, v2, v3 the resolver picks v3, and
on an empty filesystem it fails with `VersionNotFoundError`. -/
theorem C8_version_resolution_witness :
    (∃ u, versionedPath ⟨true, ["d", "f"]⟩ "v3" = versionedPath ⟨true, ["d", "f"]⟩ u ∧
      u ∈ candidateVersions
            (⟨[(["d", "f", "v1", "f"], 1), (["d", "f", "v3", "f"], 3),
               (["d", "f", "v2", "f"], 2)], []⟩ : FS Nat) [] ⟨true, ["d", "f"]⟩ ∧
      ∀ w ∈ candidateVersions
            (⟨[(["d", "f", "v1", "f"], 1), (["d", "f", "v3", "f"], 3),
               (["d", "f", "v2", "f"], 2)], []⟩ : FS Nat) [] ⟨true, ["d", "f"]⟩,
        leChars w.data u.data = true) ∧
    resolve_load_path (⟨[], []⟩ : FS Nat) [] ⟨true, ["d", "f"]⟩
        (some ⟨none, none⟩) true = .error .versionNotFound :=
  ⟨(C8_version_resolution
      (⟨[(["d", "f", "v1", "f"], 1), (["d", "f", "v3", "f"], 3),
         (["d", "f", "v2", "f"], 2)], []⟩ : FS Nat) [] ⟨true, ["d", "f"]⟩ none true).2
      (versionedPath ⟨true, ["d", "f"]⟩ "v3") rfl,
   (C8_version_resolution (⟨[], []⟩ : FS Nat) [] ⟨true, ["d", "f"]⟩ none true).1 rfl⟩

/-- C5: `_save` creates the missing parent directories of the resolved
save path before delegating to the writer, so the writer never fails with
its missing-parent error; a successful save leaves the save path's parent
directory in existence; and an unversioned save into a filesystem with no
directories at all succeeds. -/
theorem C5_save_mkdir {V : Type} (ds : FeatherLocalDataSet) (cwd : List String)
    (genId : String) (fs : FS V) (data : V) :
    (ds.saveImpl cwd genId fs data ≠ .error .fileNotFound) ∧
    (∀ fs2 : FS V, ds.saveImpl cwd genId fs data = .ok fs2 →
      fs2.hasDir
        ((resolve_save_path ds.filepath ds.version genId).absolute cwd).dropLast
        = true) ∧
    (ds.version = none → ∃ fs2 : FS V, ds.save cwd genId fs data = .ok fs2) := by
  refine ⟨?_, ?_, ?_⟩
  · rw [saveImpl_eq]
    cases hr : resolve_load_path (writtenFS ds cwd genId fs data) cwd
        ds.filepath ds.version false with
    | error e =>
      have he : e = .versionNotFound := resolve_load_path_error _ _ _ _ _ _ hr
      subst he
      intro hcontra
      simp at hcontra
    | ok lp =>
      by_cases hc : lp.absolute cwd
          = (resolve_save_path ds.filepath ds.version genId).absolute cwd
      · simp [hc]
      · simp [hc]
  · intro fs2 h
    rw [saveImpl_eq] at h
    cases hr : resolve_load_path (writtenFS ds cwd genId fs data) cwd
        ds.filepath ds.version false with
    | error e =>
      rw [hr] at h
      simp at h
    | ok lp =>
      rw [hr] at h
      by_cases hc : lp.absolute cwd
          = (resolve_save_path ds.filepath ds.version genId).absolute cwd
      · simp [hc] at h
        rw [← h]
        unfold writtenFS
        rw [hasDir_write]
        exact hasDir_mkdirParents _ _
      · simp [hc] at h
  · intro hv
    unfold FeatherLocalDataSet.save
    rw [saveImpl_eq]
    have h2 : resolve_load_path (writtenFS ds cwd genId fs data) cwd
        ds.filepath ds.version false = .ok ds.filepath := by
      rw [hv]
      rfl
    have h1 : resolve_save_path ds.filepath ds.version genId = ds.filepath := by
      rw [hv]
      rfl
    rw [h2, h1]
    simp

/-- C5 witness: an unversioned save into an empty filesystem with no
directories succeeds, and the writer never fails for a missing parent. -/
theorem C5_save_mkdir_witness :
    ((⟨⟨true, ["a", "b", "f"]⟩, [], none⟩ : FeatherLocalDataSet).saveImpl []
        "G" (⟨[], []⟩ : FS Nat) 7 ≠ .error .fileNotFound) ∧
    (∃ fs2 : FS Nat,
      (⟨⟨true, ["a", "b", "f"]⟩, [], none⟩ : FeatherLocalDataSet).save []
        "G" (⟨[], []⟩ : FS Nat) 7 = .ok fs2) :=
  ⟨(C5_save_mkdir (⟨⟨true, ["a", "b", "f"]⟩, [], none⟩ : FeatherLocalDataSet) []
      "G" (⟨[], []⟩ : FS Nat) 7).1,
   (C5_save_mkdir (⟨⟨true, ["a", "b", "f"]⟩, [], none⟩ : FeatherLocalDataSet) []
      "G" (⟨[], []⟩ : FS Nat) 7).2.2 rfl⟩

/-- C1: after the write completes, save invokes the consistency check on
the freshly resolved load path and the save path, both normalized to
absolute form, and fails with `InconsistentVersionError` exactly when the
two normalized paths differ. -/
theorem C1_save_consistency {V : Type} (ds : FeatherLocalDataSet)
    (cwd : List String) (genId : String) (fs : FS V) (data : V) (lp : PPath)
    (h : resolve_load_path (writtenFS ds cwd genId fs data) cwd
        ds.filepath ds.version false = .ok lp) :
    (ds.save cwd genId fs data = .error .inconsistentVersion ↔
      lp.absolute cwd
        ≠ (resolve_save_path ds.filepath ds.version genId).absolute cwd) := by
  unfold FeatherLocalDataSet.save
  rw [saveImpl_eq, h]
  by_cases hc : lp.absolute cwd
      = (resolve_save_path ds.filepath ds.version genId).absolute cwd
  · simp [hc]
  · simp [hc, KErr.isDataSetError]

/-- C1 witness: forcing different explicit load and save identifiers makes
the normalized paths differ and the save fail with
`InconsistentVersionError`. -/
theorem C1_save_consistency_witness :
    (⟨⟨true, ["d", "f"]⟩, [], some ⟨some "A", some "B"⟩⟩ : FeatherLocalDataSet).save
        [] "G" (⟨[], []⟩ : FS Nat) 0 = .error .inconsistentVersion :=
  (C1_save_consistency
      (⟨⟨true, ["d", "f"]⟩, [], some ⟨some "A", some "B"⟩⟩ : FeatherLocalDataSet)
      [] "G" (⟨[], []⟩ : FS Nat) 0 (versionedPath ⟨true, ["d", "f"]⟩ "A") rfl).mpr
    (by decide)

/-- C3: a save that succeeds followed by a load on the same handle and the
resulting filesystem returns exactly the value that was saved. -/
theorem C3_round_trip {V : Type} (ds : FeatherLocalDataSet) (cwd : List String)
    (genId : String) (fs : FS V) (data : V) (fs2 : FS V)
    (h : ds.save cwd genId fs data = .ok fs2) :
    ds.load cwd fs2 = .ok data := by
  unfold FeatherLocalDataSet.save at h
  rw [saveImpl_eq] at h
  cases hr : resolve_load_path (writtenFS ds cwd genId fs data) cwd
      ds.filepath ds.version false with
  | error e =>
    rw [hr] at h
    exfalso
    by_cases hd : e.isDataSetError = true
    · simp [hd] at h
    · simp [hd] at h
  | ok lp =>
    rw [hr] at h
    by_cases hc : lp.absolute cwd
        = (resolve_save_path ds.filepath ds.version genId).absolute cwd
    · simp [hc] at h
      have hfile : fs2.isFile (lp.absolute cwd) = true := by
        rw [← h, hc]
        unfold writtenFS
        exact isFile_write_self _ _ _
      have hres : resolve_load_path fs2 cwd ds.filepath ds.version true = .ok lp := by
        rw [← h]
        exact resolve_load_path_strengthen _ _ _ _ _ hr (by rw [h]; exact hfile)
      have hread : fs2.read (lp.absolute cwd) = some data := by
        rw [← h, hc]
        unfold writtenFS
        exact read_write_self _ _ _
      unfold FeatherLocalDataSet.load FeatherLocalDataSet.loadImpl loadWith
        FeatherLocalDataSet.get_load_path
      simp only [hres]
      unfold read_feather
      simp only [hread]
    · simp [hc, KErr.isDataSetError] at h

/-- C3 witness: saving 7 under an auto-generated version and loading it
back from the resulting filesystem returns 7. -/
theorem C3_round_trip_witness :
    (⟨⟨true, ["d", "f"]⟩, [], some ⟨none, none⟩⟩ : FeatherLocalDataSet).load []
        (⟨[(["d", "f", "G", "f"], 7)], [["d"], ["d", "f"], ["d", "f", "G"]]⟩ : FS Nat)
      = .ok 7 :=
  C3_round_trip (⟨⟨true, ["d", "f"]⟩, [], some ⟨none, none⟩⟩ : FeatherLocalDataSet)
    [] "G" (⟨[], []⟩ : FS Nat) 7
    (⟨[(["d", "f", "G", "f"], 7)], [["d"], ["d", "f"], ["d", "f", "G"]]⟩ : FS Nat)
    rfl

/-- C9: every operation returns the instance unchanged (the configuration
fields filepath, options and version are never mutated); load, exists and
describe also leave the filesystem unchanged; and each call re-resolves
paths against the filesystem passed to it, so a file written externally is
seen by a subsequent exists call. -/
theorem C9_stateless {V : Type} (ds : FeatherLocalDataSet) (cwd : List String)
    (fs : FS V) (op : OpCall V) :
    ((runOp ds cwd fs op).1 = ds) ∧
    (op = .opLoad ∨ op = .opExists ∨ op = .opDescribe →
      (runOp ds cwd fs op).2.1 = fs) ∧
    (∀ data : V, ds.version = none →
      ds.existsOp cwd (fs.write (ds.filepath.absolute cwd) data) = .ok true) := by
  refine ⟨?_, ?_, ?_⟩
  · cases op with
    | opLoad => rfl
    | opSave data genId =>
      simp only [runOp]
      cases ds.save cwd genId fs data <;> rfl
    | opExists => rfl
    | opDescribe => rfl
  · intro hop
    rcases hop with h | h | h <;> subst h <;> rfl
  · intro data hv
    unfold FeatherLocalDataSet.existsOp FeatherLocalDataSet.get_load_path existsImpl
    have hres : resolve_load_path (fs.write (ds.filepath.absolute cwd) data) cwd
        ds.filepath ds.version true = .ok ds.filepath := by
      rw [hv]
      rfl
    rw [hres]
    show Except.ok
        ((fs.write (ds.filepath.absolute cwd) data).isFile (ds.filepath.absolute cwd))
      = Except.ok true
    rw [isFile_write_self]

/-- C9 witness: a load call leaves the filesystem untouched, and an
externally written file is picked up by the next exists call on the same
handle. -/
theorem C9_stateless_witness :
    (runOp (⟨⟨true, ["f"]⟩, [], none⟩ : FeatherLocalDataSet) [] (⟨[], []⟩ : FS Nat)
        .opLoad).2.1 = (⟨[], []⟩ : FS Nat) ∧
    (⟨⟨true, ["f"]⟩, [], none⟩ : FeatherLocalDataSet).existsOp []
        ((⟨[], []⟩ : FS Nat).write ((⟨true, ["f"]⟩ : PPath).absolute []) 5)
      = .ok true :=
  ⟨(C9_stateless (⟨⟨true, ["f"]⟩, [], none⟩ : FeatherLocalDataSet) []
      (⟨[], []⟩ : FS Nat) .opLoad).2.1 (Or.inl rfl),
   (C9_stateless (⟨⟨true, ["f"]⟩, [], none⟩ : FeatherLocalDataSet) []
      (⟨[], []⟩ : FS Nat) .opLoad).2.2 5 rfl⟩
